import Mathlib

/-!
Shallow embedding of the GTP (Go Text Protocol) connector of the AQ Go
engine (`src/gtp.h`, class `GTPConnector`): line tokenization, command
parsing (`ParseCommand`), the substring helper (`FindString`), the handler
chain and response framing of `ExecuteCommand`, the blank-line skip of the
session loop (`Start`), and the pondering time-budget policy.

Conventions of the embedding:
* fallible C++ code is translated to `Option`: a `none` result models an
  uncaught exception (`std::stoi` / `std::stod` throwing) or an
  out-of-bounds `std::vector::operator[]` access, either of which kills
  the real process;
* the handlers declared in `gtp.h` but defined in another translation
  unit (`OnClearBoardCommand`, `OnGenmoveCommand`, ...) are opaque
  collaborators, modelled as abstract functions in an `Env` record over an
  abstract collaborator-state type `σ` (board and search tree contents);
* `double` quantities (komi, clock times) are carried as rationals; the
  numeric value produced by a successful `stod` is itself opaque
  (`Env.stodVal`), only the success/failure of the conversion is modelled
  concretely (`stodOk`); overflow of `stod` to `std::out_of_range` on
  extreme exponents is not modelled.
-/

/-- Decimal digit test, as C `isdigit` on ASCII input. -/
def isDigitChar (c : Char) : Bool := '0' ≤ c && c ≤ '9'

/-- Whitespace test, as C `isspace` in the default locale (the characters
skipped by `istream >> std::string`). -/
def isSpaceChar (c : Char) : Bool :=
  c = ' ' || c = '\t' || c = '\n' || c = '\x0b' || c = '\x0c' || c = '\r'

/-- Numeric value of a run of decimal digit characters. -/
def digitsVal (l : List Char) : Nat := l.foldl (fun a c => a * 10 + (c.toNat - 48)) 0

/-- Largest value of the C++ `int` type (32-bit). -/
def intMax : Int := 2 ^ 31 - 1

/-- Smallest value of the C++ `int` type (32-bit). -/
def intMin : Int := -(2 ^ 31)

/-- C++ `std::stoi`: skips leading whitespace, reads an optional sign and a
nonempty run of decimal digits, and ignores anything after the digits.
`none` models a thrown `std::invalid_argument` (no digits at all) or
`std::out_of_range` (value outside `int`), which `gtp.h` never catches. -/
def stoi (s : String) : Option Int :=
  let l := s.data.dropWhile isSpaceChar
  let sl : Int × List Char :=
    match l with
    | '-' :: rest => (-1, rest)
    | '+' :: rest => (1, rest)
    | _ => (1, l)
  let ds := sl.2.takeWhile isDigitChar
  if ds.isEmpty then none
  else
    let v : Int := sl.1 * (digitsVal ds : Int)
    if intMin ≤ v && v ≤ intMax then some v else none

/-- Whether C++ `std::stod` succeeds on `s`, i.e. `strtod` finds a
convertible prefix: after optional whitespace and an optional sign the
input continues with a digit, with a decimal point followed by a digit, or
with `inf` / `nan` (case-insensitive).  A failing conversion throws
`std::invalid_argument`, which `gtp.h` never catches. -/
def stodOk (s : String) : Bool :=
  let l := s.data.dropWhile isSpaceChar
  let l :=
    match l with
    | '-' :: rest => rest
    | '+' :: rest => rest
    | _ => l
  let low := l.map Char.toLower
  match l with
  | [] => false
  | c :: rest =>
    isDigitChar c ||
      (c = '.' && (match rest with | d :: _ => isDigitChar d | [] => false)) ||
      ['i', 'n', 'f'].isPrefixOf low || ['n', 'a', 'n'].isPrefixOf low

/-- Worker for `splitTokens`: `acc` holds the characters of the token
currently being read, in reverse. -/
def splitTokensAux : List Char → List Char → List String
  | [], acc => if acc.isEmpty then [] else [String.mk acc.reverse]
  | c :: rest, acc =>
    if isSpaceChar c then
      if acc.isEmpty then splitTokensAux rest []
      else String.mk acc.reverse :: splitTokensAux rest []
    else splitTokensAux rest (c :: acc)

/-- Splits a character list into its maximal nonempty runs of
non-whitespace characters, as repeated `istream >> std::string` extraction
does in `GTPConnector::ParseCommand`. -/
def splitTokens (l : List Char) : List String := splitTokensAux l []

/-- Whitespace tokenization of one raw command line. -/
def tokenize (s : String) : List String := splitTokens s.data

/-- The leading-`=` strip of `ParseCommand` (gtp.h:265): when the token
starts with `=` (`s.substr(0, 1) == "="`), the rest of the token
(`s.substr(1)`); otherwise the token unchanged. -/
def stripEq (s : String) : String :=
  match s.data with
  | '=' :: rest => String.mk rest
  | _ => s

/-- One iteration of the token loop of `GTPConnector::ParseCommand`
(gtp.h:263-276) on the accumulated `(command_id, type, args)` state: while
`type` is still empty, a leading `=` is stripped, a token that becomes
empty is skipped, an all-digit token is fed to `stoi` and becomes the
command id, and any other token becomes the command name `type`; once
`type` is set, every token is appended to `args`.  `none` models `stoi`
throwing `std::out_of_range` on an over-large digit run. -/
def parseStep : Int × String × List String → String → Option (Int × String × List String)
  | (cid, ty, args), s =>
    if ty = "" then
      let s1 := stripEq s
      if s1 = "" then some (cid, ty, args)
      else if s1.data.all isDigitChar then
        match stoi s1 with
        | some v => some (v, ty, args)
        | none => none
      else some (cid, s1, args)
    else some (cid, ty, args ++ [s])

/-- `GTPConnector::ParseCommand` (gtp.h:254-279): tokenizes the raw line
and folds `parseStep` over the tokens, starting from command id `-1`, an
empty name and no arguments. -/
def ParseCommand (command : String) : Option (Int × String × List String) :=
  (tokenize command).foldlM parseStep (-1, "", [])

/-- The parser exactly as the specification words it (§4.4, quoted by claim
C1): only the first token is examined for the `=` strip and for the digit
test, and when that token is a digit run the next token is the name and
everything after it the arguments.  This definition follows the
specification's words, to be compared with `ParseCommand`, which follows
the source. -/
def ParseCommandSpec (command : String) : Int × String × List String :=
  match tokenize command with
  | [] => (-1, "", [])
  | t :: rest =>
    let t1 := stripEq t
    if (t1 != "") && t1.data.all isDigitChar then
      match rest with
      | [] => ((digitsVal t1.data : Int), "", [])
      | n :: as => ((digitsVal t1.data : Int), n, as)
    else (-1, t1, rest)

/-- Direct recursive description of the token scan `ParseCommand` actually
performs (claim C1 as amended): while the name is undetermined, every token
has a leading `=` stripped, empty results are skipped, and each all-digit
token updates the command id (a later digit token overwriting an earlier
one, an over-large one aborting); the first remaining token becomes the
name and all later tokens the arguments. -/
def parseScan : List String → Int → Option (Int × String × List String)
  | [], cid => some (cid, "", [])
  | t :: rest, cid =>
    let t1 := stripEq t
    if t1 = "" then parseScan rest cid
    else if t1.data.all isDigitChar then
      match stoi t1 with
      | some v => parseScan rest v
      | none => none
    else some (cid, t1, rest)

/-- The amended description of `ParseCommand`: `parseScan` over the tokens. -/
def ParseCommandAmended (command : String) : Option (Int × String × List String) :=
  parseScan (tokenize command) (-1)

/-- Stone colours, as the `Color` constants used in `gtp.h`. -/
inductive Color
  | kEmpty
  | kBlack
  | kWhite
deriving DecidableEq

/-- Modelled from the spec: the closed recognized-command set of §6.  The
source declares `kListCommands` as `extern` in `gtp.h` and its defining
translation unit is not among the sources, so the list is taken from the
specification's closed enumeration of recognized commands. -/
def kListCommands : List String :=
  ["protocol_version", "name", "version", "known_command", "list_commands",
   "boardsize", "clear_board", "komi", "time_left", "genmove", "play",
   "undo", "final_score", "lz-analyze", "kgs-time_settings", "time_settings",
   "set_free_handicap", "fixed_handicap", "place_free_handicap",
   "gogui-play_sequence", "kgs-game_over", "quit"]

/-- Modelled from the spec: the single supported board dimension.
`kBSize` lives in `board.h`, which is not among the sources; the
specification fixes a single supported dimension and the dispatcher's
comment and failure message in `gtp.h` fix it to 19. -/
def kBSize : Int := 19

/-- Substring containment on character lists: some drop of `s` has `pat`
as a prefix. -/
def listContains (s pat : List Char) : Bool :=
  (List.range (s.length + 1)).any (fun i => pat.isPrefixOf (s.drop i))

/-- Substring containment on strings, as `std::string::find != npos`. -/
def strContains (s pat : String) : Bool := listContains s.data pat.data

/-- `GTPConnector::FindString` (gtp.h:242-249): whether `str` contains any
of the nonempty strings among `s1`, `s2`, `s3`. -/
def FindString (str s1 : String) (s2 : String := "") (s3 : String := "") : Bool :=
  ((s1 != "") && strContains str s1) || ((s2 != "") && strContains str s2) ||
    ((s3 != "") && strContains str s3)

/-- The `GTPConnector` session state read or written by `ExecuteCommand`.
`σ` is the opaque state of the external collaborators (board position,
search tree internals), threaded through the abstract handlers; the
`stopThinkCount` field counts the `tree_.StopToThink()` cancellation calls
issued to the search collaborator. -/
structure GTPState (σ : Type) where
  cEngine : Color
  goPonder : Bool
  successHandle : Bool
  lizzieInterval : Int
  komiOption : ℚ
  treeKomi : ℚ
  treeLeftTime : ℚ
  needTimeControl : String
  stopThinkCount : Nat
  ext : σ
deriving DecidableEq

/-- Read-only configuration: the `Options["lizzie"]` flag read by
`ExecuteCommand` and the pondering budget policy. -/
structure Config where
  lizzie : Bool
deriving DecidableEq

/-- Opaque collaborators of the dispatcher: the numeric value of a
successful `stod`, the `%.1f` rendering used by the komi diagnostic, the
`kVersion` string, the command handlers declared in `gtp.h` but defined
elsewhere (each taking the session state and the parsed arguments and
returning the new state and the response body), and the two outputs of
`PrintFinalResult` (its returned score string and its diagnostic text). -/
structure Env (σ : Type) where
  stodVal : String → ℚ
  formatF1 : ℚ → String
  version : String
  onClearBoard : GTPState σ → List String → GTPState σ × String
  onGenmove : GTPState σ → List String → GTPState σ × String
  onPlay : GTPState σ → List String → GTPState σ × String
  onUndo : GTPState σ → List String → GTPState σ × String
  onLzAnalyze : GTPState σ → List String → GTPState σ × String
  onKgsTimeSettings : GTPState σ → List String → GTPState σ × String
  onTimeSettings : GTPState σ → List String → GTPState σ × String
  onSetFreeHandicap : GTPState σ → List String → GTPState σ × String
  onFixedHandicap : GTPState σ → List String → GTPState σ × String
  onGoguiPlaySequence : GTPState σ → List String → GTPState σ × String
  printFinalResult : GTPState σ → String
  finalDiag : GTPState σ → String

/-- `GTPConnector::StopLizzieAnalysis` (gtp.h:338-341): cancels the running
think (`tree_.StopToThink()`) and disables streaming analysis by setting
the interval to `-1`. -/
def StopLizzieAnalysis (st : GTPState σ) : GTPState σ :=
  { st with stopThinkCount := st.stopThinkCount + 1, lizzieInterval := -1 }

/-- The handler chain of `GTPConnector::ExecuteCommand` (gtp.h:158-228):
given the raw command line (needed because the first branch tests
`FindString(command, "protocol_version")` on the raw line), the parsed
command name `ty` and the parsed arguments, it returns the updated session
state, the response body, and the diagnostic (stderr) lines, in source
order.  `none` models a crash: an out-of-bounds `args_[i]` access or an
uncaught `stoi` / `stod` exception. -/
def dispatch (cfg : Config) (env : Env σ) (st : GTPState σ) (command ty : String)
    (args : List String) : Option (GTPState σ × String × List String) :=
  if FindString command "protocol_version" then some (st, "2", [])
  else if ty = "name" then some (st, "AQ", [])
  else if ty = "version" then
    some (st, if cfg.lizzie then "0.16" else env.version, [])
  else if ty = "known_command" then
    some (st,
      (match args with
       | a :: _ => if kListCommands.contains a then "true" else "false"
       | [] => "false"), [])
  else if ty = "list_commands" then
    some (st, kListCommands.foldl (fun r c => r ++ c ++ "\n") "" ++ "= ", [])
  else if ty = "boardsize" then
    match args with
    | [] => none
    | a :: _ =>
      match stoi a with
      | none => none
      | some v =>
        if v ≠ kBSize then
          let resp := "This build is allowed to play in only " ++ toString kBSize ++ " board."
          some ({ st with successHandle := false }, resp, ["? " ++ resp ++ "\n"])
        else some (st, "", [])
  else if ty = "clear_board" then
    let p := env.onClearBoard st args
    some (p.1, p.2, [])
  else if ty = "komi" then
    match args with
    | [] => none
    | a :: _ =>
      if stodOk a then
        let k := env.stodVal a
        some ({ st with komiOption := k, treeKomi := k }, "",
          ["set komi=" ++ env.formatF1 k ++ ".\n"])
      else none
  else if ty = "time_left" then
    match args with
    | a0 :: a1 :: _ =>
      let c := if FindString a0 "B" "b" then Color.kBlack
        else if FindString a0 "W" "w" then Color.kWhite
        else Color.kEmpty
      if stodOk a1 then
        let lt := env.stodVal a1
        let st1 := if st.cEngine = Color.kEmpty ∨ st.cEngine = c
          then { st with treeLeftTime := lt } else st
        some ({ st1 with needTimeControl := "false" }, "", [])
      else none
    | _ => none
  else if ty = "genmove" then
    let p := env.onGenmove st args
    some (p.1, p.2, [])
  else if ty = "play" then
    let p := env.onPlay st args
    some (p.1, p.2, [])
  else if ty = "undo" then
    let p := env.onUndo st args
    some (p.1, p.2, [])
  else if ty = "final_score" then
    some (st, env.printFinalResult st, [env.finalDiag st])
  else if ty = "lz-analyze" then
    let p := env.onLzAnalyze st args
    some (p.1, p.2, [])
  else if ty = "kgs-time_settings" then
    let p := env.onKgsTimeSettings st args
    some (p.1, p.2, [])
  else if ty = "time_settings" then
    let p := env.onTimeSettings st args
    some (p.1, p.2, [])
  else if ty = "set_free_handicap" then
    let p := env.onSetFreeHandicap st args
    some (p.1, p.2, [])
  else if ty = "fixed_handicap" ∨ ty = "place_free_handicap" then
    let p := env.onFixedHandicap st args
    some (p.1, p.2, [])
  else if ty = "gogui-play_sequence" then
    let p := env.onGoguiPlaySequence st args
    some (p.1, p.2, [])
  else if ty = "kgs-game_over" then
    some ({ st with goPonder := false }, "", [])
  else if ty = "quit" then
    let st1 := StopLizzieAnalysis st
    some (st1, "", [env.finalDiag st1])
  else
    some ({ st with successHandle := false }, "unknown command.",
      ["? unknown command.\n"])

/-- The pre-dispatch step of `ExecuteCommand` (gtp.h:151-156): the success
flag is reset to `true`, and if the streaming-analysis interval is
positive, a single blank line is sent on the protocol stream and
`StopLizzieAnalysis` is invoked.  Returns the state dispatch runs against
and the protocol output emitted so far. -/
def preState (st : GTPState σ) : GTPState σ × List String :=
  let st1 := { st with successHandle := true }
  if 0 < st1.lizzieInterval then (StopLizzieAnalysis st1, ["\n"]) else (st1, [])

/-- The response framing of `ExecuteCommand` (gtp.h:230-234): marker `=`
or `?` from the success flag, the command id appended when nonnegative, a
space, the body, a newline when streaming is disabled (interval negative),
and the line's own newline from the `"%s %s%s\n"` format. -/
def frameLine (commandId : Int) (st : GTPState σ) (response : String) : String :=
  ((if st.successHandle then "=" else "?") ++
      (if 0 ≤ commandId then toString commandId else "")) ++
    " " ++ response ++ (if st.lizzieInterval < 0 then "\n" else "") ++ "\n"

/-- Result of one `ExecuteCommand` call: the final session state, the
strings written to the protocol stream (stdout) in order, the diagnostic
(stderr) lines, and the returned continuation flag (`type != "quit"`). -/
structure ExecResult (σ : Type) where
  state : GTPState σ
  stdoutOut : List String
  stderrOut : List String
  running : Bool
deriving DecidableEq

/-- `GTPConnector::ExecuteCommand` (gtp.h:143-237): parse, reset the
success flag, terminate a pending streamed analysis, dispatch, frame and
send the response, and report whether the session loop continues.  `none`
models a crash anywhere along the way. -/
def ExecuteCommand (cfg : Config) (env : Env σ) (st0 : GTPState σ) (command : String) :
    Option (ExecResult σ) :=
  (ParseCommand command).bind fun p =>
    (dispatch cfg env (preState st0).1 command p.2.1 p.2.2).bind fun d =>
      some { state := d.1,
             stdoutOut := (preState st0).2 ++ [frameLine p.1 d.1 d.2.1],
             stderrOut := d.2.2,
             running := p.2.1 != "quit" }

/-- Outcome of one session-loop iteration for a dequeued line. -/
inductive LoopStep (σ : Type)
  | skip
  | dispatched (r : Option (ExecResult σ))
deriving DecidableEq

/-- The per-line decision of the session loop (`GTPConnector::Start`,
gtp.h:136-139): the lines `""` and `"\n"` are skipped without dispatch,
every other line is handed to `ExecuteCommand`. -/
def SessionStep (cfg : Config) (env : Env σ) (st : GTPState σ) (command : String) :
    LoopStep σ :=
  if command = "" ∨ command = "\n" then LoopStep.skip
  else LoopStep.dispatched (ExecuteCommand cfg env st command)

/-- The pondering time budget of `GTPConnector::Start` (gtp.h:108-114):
100 time-units by default; 86400 when `Options["lizzie"]` is set;
otherwise twice one byoyomi period when byoyomi periods exist, main time
is in use and the remaining time is below two byoyomi periods. -/
def ponderTimeLimit (lizzie : Bool) (byoyomi mainTime leftTime : ℚ) : ℚ :=
  let t : ℚ := 100
  if lizzie then 86400
  else if 0 < byoyomi ∧ 0 < mainTime ∧ leftTime < byoyomi * 2 then byoyomi * 2
  else t

/-- Trivial collaborator environment over a unit collaborator state, used
to instantiate the universally quantified theorems on concrete inputs. -/
def unitEnv : Env Unit :=
  { stodVal := fun _ => 0
    formatF1 := fun _ => "0.0"
    version := "4.0.0"
    onClearBoard := fun st _ => (st, "")
    onGenmove := fun st _ => (st, "")
    onPlay := fun st _ => (st, "")
    onUndo := fun st _ => (st, "")
    onLzAnalyze := fun st _ => (st, "")
    onKgsTimeSettings := fun st _ => (st, "")
    onTimeSettings := fun st _ => (st, "")
    onSetFreeHandicap := fun st _ => (st, "")
    onFixedHandicap := fun st _ => (st, "")
    onGoguiPlaySequence := fun st _ => (st, "")
    printFinalResult := fun _ => "0"
    finalDiag := fun _ => "" }

/-- Concrete configuration with streaming analysis not configured. -/
def cfgW : Config := { lizzie := false }

/-- Concrete session state as after the `GTPConnector` constructor:
no engine colour, streaming analysis disabled. -/
def st0W : GTPState Unit :=
  { cEngine := Color.kEmpty
    goPonder := false
    successHandle := true
    lizzieInterval := -1
    komiOption := 0
    treeKomi := 0
    treeLeftTime := 0
    needTimeControl := "true"
    stopThinkCount := 0
    ext := () }

/-- Concrete session state with a positive streaming-analysis interval. -/
def stLzW : GTPState Unit := { st0W with lizzieInterval := 1 }

theorem foldlM_parseStep_named (ts : List String) (cid : Int) (ty : String)
    (args : List String) (h : ty ≠ "") :
    ts.foldlM parseStep (cid, ty, args) = some (cid, ty, args ++ ts) := by
  induction ts generalizing args with
  | nil => simp
  | cons t ts ih =>
    rw [List.foldlM_cons]
    have hstep : parseStep (cid, ty, args) t = some (cid, ty, args ++ [t]) := by
      simp [parseStep, if_neg h]
    rw [hstep]
    simpa using ih (args ++ [t])

theorem foldlM_parseStep_scan (ts : List String) (cid : Int) :
    ts.foldlM parseStep (cid, "", ([] : List String)) = parseScan ts cid := by
  induction ts generalizing cid with
  | nil => simp [parseScan]
  | cons t ts ih =>
    rw [List.foldlM_cons]
    simp only [parseScan]
    by_cases h1 : (stripEq t) = ""
    · have hstep : parseStep (cid, "", ([] : List String)) t = some (cid, "", []) := by
        simp [parseStep, h1]
      rw [hstep]
      simpa [h1] using ih cid
    · by_cases h2 : ((stripEq t).data.all isDigitChar) = true
      · cases hs : stoi (stripEq t) with
        | none =>
          have hstep : parseStep (cid, "", ([] : List String)) t = none := by
            simp [parseStep, h1, h2, hs]
          rw [hstep]
          simp [h1, h2, hs]
        | some v =>
          have hstep : parseStep (cid, "", ([] : List String)) t = some (v, "", []) := by
            simp [parseStep, h1, h2, hs]
          rw [hstep]
          simpa [h1, h2, hs] using ih v
      · have hstep : parseStep (cid, "", ([] : List String)) t =
            some (cid, (stripEq t), []) := by
          simp [parseStep, h1, h2]
        rw [hstep]
        have hn := foldlM_parseStep_named ts cid (stripEq t) [] h1
        simpa [h1, h2] using hn

/-- C1 (counterexample): the claim's description of `ParseCommand` fails on
the line `"7 8 play"`.  By the claim's words the first token `7` is the
numeric id and the next token is the name, so the result would be id 7,
name `8`, args `["play"]` (as `ParseCommandSpec` computes); the source
instead keeps digit-testing tokens until a non-digit one appears, so the
second digit token `8` overwrites the id and `play` becomes the name. -/
theorem parseCommand_spec_divergence :
    ParseCommand "7 8 play" = some (8, "play", []) ∧
    ParseCommandSpec "7 8 play" = (7, "8", ["play"]) := by decide

/-- C1 (amended): `ParseCommand` scans the tokens of the line in order;
while the command name is undetermined, each token has a leading `=`
stripped, a token that becomes empty is skipped, and each all-digit token
sets the command id (a later digit token overwriting an earlier one); the
first remaining token is the name and all subsequent tokens are the
positional arguments in order, uninterpreted (`parseScan`).  In
particular `"=7 play B Q4"` yields id 7, name `play`, args `["B", "Q4"]`,
and `"genmove w"` yields no id (`-1`), name `genmove`, args `["w"]`. -/
theorem parseCommand_amended_scan :
    (∀ command, ParseCommand command = ParseCommandAmended command) ∧
    ParseCommand "=7 play B Q4" = some (7, "play", ["B", "Q4"]) ∧
    ParseCommand "genmove w" = some (-1, "genmove", ["w"]) :=
  ⟨fun command => foldlM_parseStep_scan (tokenize command) (-1), by decide, by decide⟩

/-- C3 (failing inputs): contrary to the claim, `ExecuteCommand` does crash
on malformed numeric arguments: `boardsize` with no argument and
`time_left` with at most one argument perform an out-of-bounds `args_[i]`
access, `boardsize x` raises an uncaught `std::invalid_argument` from
`stoi`, and `komi` / `komi x` fail the same two ways via `stod`; in the
embedding each evaluates to `none` (a crash). -/
theorem malformed_numeric_arguments_crash :
    ExecuteCommand cfgW unitEnv st0W "boardsize" = none ∧
    ExecuteCommand cfgW unitEnv st0W "boardsize x" = none ∧
    ExecuteCommand cfgW unitEnv st0W "komi" = none ∧
    ExecuteCommand cfgW unitEnv st0W "komi x" = none ∧
    ExecuteCommand cfgW unitEnv st0W "time_left B" = none ∧
    ExecuteCommand cfgW unitEnv st0W "time_left" = none := by decide

/-- C6 (counterexample): the line `" "` (a single space) tokenizes to an
empty command name, yet the session loop does not silently ignore it: the
skip test of `Start` compares the raw line against `""` and `"\n"` only,
so the line is dispatched and answered with an `unknown command.` failure
response on the protocol stream. -/
theorem blank_line_not_ignored :
    ParseCommand " " = some (-1, "", []) ∧
    SessionStep cfgW unitEnv st0W " " =
      LoopStep.dispatched (some
        { state := { st0W with successHandle := false },
          stdoutOut := ["? unknown command.\n\n"],
          stderrOut := ["? unknown command.\n"],
          running := true }) := by decide

/-- C6 (amended): the session loop silently ignores exactly the raw lines
`""` and `"\n"` (skipping them without dispatch and without any response);
every other line, including whitespace-only lines that tokenize to an
empty command name, is dispatched to `ExecuteCommand`. -/
theorem session_skip_exactly_empty_or_newline (cfg : Config) (env : Env σ)
    (st : GTPState σ) (command : String) :
    SessionStep cfg env st command = LoopStep.skip ↔
      (command = "" ∨ command = "\n") := by
  unfold SessionStep
  split
  · next h => simp [h]
  · next h => simp [h]

/-- C6 (witness): the empty line is skipped. -/
theorem session_skip_exactly_empty_or_newline_witness :
    SessionStep cfgW unitEnv st0W "" = LoopStep.skip :=
  (session_skip_exactly_empty_or_newline cfgW unitEnv st0W "").mpr (Or.inl rfl)

/-- C9: the pondering time budget is 100 time-units by default; 86400
time-units (one full day) when streaming-analysis (lizzie) mode is
configured; and otherwise twice one byoyomi period when byoyomi periods
exist, main time is in use and the remaining time is close to exhausted
(below two byoyomi periods). -/
theorem ponder_time_budget (lizzie : Bool) (byoyomi mainTime leftTime : ℚ) :
    (lizzie = true → ponderTimeLimit lizzie byoyomi mainTime leftTime = 86400) ∧
    (lizzie = false → 0 < byoyomi → 0 < mainTime → leftTime < byoyomi * 2 →
      ponderTimeLimit lizzie byoyomi mainTime leftTime = byoyomi * 2) ∧
    (lizzie = false → ¬(0 < byoyomi ∧ 0 < mainTime ∧ leftTime < byoyomi * 2) →
      ponderTimeLimit lizzie byoyomi mainTime leftTime = 100) := by
  refine ⟨fun h => by simp [ponderTimeLimit, h], fun h h1 h2 h3 => ?_, fun h hn => ?_⟩
  · simp [ponderTimeLimit, h, h1, h2, h3]
  · simp [ponderTimeLimit, h, hn]

/-- C9 (witness): with streaming off, one byoyomi period of 30 units, main
time in use and 50 units left, the budget is two byoyomi periods. -/
theorem ponder_time_budget_witness :
    ponderTimeLimit false 30 60 50 = 30 * 2 :=
  (ponder_time_budget false 30 60 50).2.1 rfl (by norm_num) (by norm_num) (by norm_num)

/-- C10: `ExecuteCommand` resets the success flag to `true` before any
handler runs, so its entire result — in particular the `=` / `?` marker of
the framed response — is independent of the success flag left over from
the previous command: success is the default and a previous failure never
carries over. -/
theorem success_flag_reset_independence (cfg : Config) (env : Env σ)
    (st : GTPState σ) (command : String) (b : Bool) :
    ExecuteCommand cfg env { st with successHandle := b } command =
      ExecuteCommand cfg env st command := by
  unfold ExecuteCommand
  exact congrArg (Option.bind (ParseCommand command)) (funext fun p => rfl)

theorem FindString_single (str s1 : String) :
    FindString str s1 = ((s1 != "") && strContains str s1) := by
  simp [FindString]

theorem frameLine_shape (cid : Int) (st : GTPState σ) (resp : String) :
    frameLine cid st resp =
      (if st.successHandle then "=" else "?") ++
        (if 0 ≤ cid then toString cid else "") ++ " " ++ resp ++
        (if st.lizzieInterval < 0 then "\n\n" else "\n") := by
  unfold frameLine
  by_cases hc : st.lizzieInterval < 0
  · rw [if_pos hc, if_pos hc, String.append_assoc _ "\n" "\n",
      show ("\n" : String) ++ "\n" = "\n\n" from by decide]
  · rw [if_neg hc, if_neg hc, String.append_empty]

theorem dispatch_unknown (cfg : Config) (env : Env σ) (st : GTPState σ)
    (command ty : String) (args : List String)
    (hpv : strContains command "protocol_version" = false)
    (hmem : kListCommands.contains ty = false) :
    dispatch cfg env st command ty args =
      some ({ st with successHandle := false }, "unknown command.",
        ["? unknown command.\n"]) := by
  have hfs : FindString command "protocol_version" = false := by
    rw [FindString_single, hpv, Bool.and_false]
  simp only [kListCommands, List.contains_cons, List.contains_nil,
    Bool.or_eq_false_iff, beq_eq_false_iff_ne, ne_eq] at hmem
  obtain ⟨h1, h2, h3, h4, h5, h6, h7, h8, h9, h10, h11, h12, h13, h14, h15,
    h16, h17, h18, h19, h20, h21, h22, -⟩ := hmem
  simp [dispatch, hfs, h1, h2, h3, h4, h5, h6, h7, h8, h9, h10, h11, h12,
    h13, h14, h15, h16, h17, h18, h19, h20, h21, h22]

/-- C2 (counterexample): the line `"foo protocol_version"` parses to the
command name `foo`, which is not in the recognized command set, yet
`ExecuteCommand` answers it with a success response `= 2` and no
diagnostic, because the first dispatch branch tests
`FindString(command, "protocol_version")` on the whole raw line rather
than comparing the parsed name. -/
theorem unknownCommand_substring_divergence :
    ParseCommand "foo protocol_version" = some (-1, "foo", ["protocol_version"]) ∧
    kListCommands.contains "foo" = false ∧
    ExecuteCommand cfgW unitEnv st0W "foo protocol_version" =
      some { state := st0W, stdoutOut := ["= 2\n\n"], stderrOut := [],
             running := true } := by decide

/-- C2 (amended): for every command line whose parsed name is not in the
recognized command set and whose raw line does not contain the substring
`protocol_version`, `ExecuteCommand` produces a failure response with
marker `?` and body exactly `unknown command.`, writes the diagnostic line
`? unknown command.` to the error channel and not to the protocol stream,
and returns a continuation signal of `true`. -/
theorem unknown_command_failure_response (cfg : Config) (env : Env σ)
    (st : GTPState σ) (command : String) (cid : Int) (ty : String)
    (args : List String)
    (hp : ParseCommand command = some (cid, ty, args))
    (hmem : kListCommands.contains ty = false)
    (hpv : strContains command "protocol_version" = false) :
    ∃ r, ExecuteCommand cfg env st command = some r ∧
      r.running = true ∧
      r.state.successHandle = false ∧
      r.stderrOut = ["? unknown command.\n"] ∧
      r.stdoutOut.getLast? =
        some ("?" ++ (if 0 ≤ cid then toString cid else "") ++ " " ++
          "unknown command." ++
          (if r.state.lizzieInterval < 0 then "\n\n" else "\n")) := by
  have hq : ty ≠ "quit" := fun he => absurd (he ▸ hmem) (by decide)
  have hd := dispatch_unknown cfg env (preState st).1 command ty args hpv hmem
  have hEx : ExecuteCommand cfg env st command =
      some { state := { (preState st).1 with successHandle := false },
             stdoutOut := (preState st).2 ++
               [frameLine cid { (preState st).1 with successHandle := false }
                 "unknown command."],
             stderrOut := ["? unknown command.\n"],
             running := ty != "quit" } := by
    unfold ExecuteCommand
    rw [hp, Option.some_bind, hd, Option.some_bind]
  refine ⟨_, hEx, bne_iff_ne.mpr hq, rfl, rfl, ?_⟩
  show ((preState st).2 ++
      [frameLine cid { (preState st).1 with successHandle := false }
        "unknown command."]).getLast? = _
  rw [List.getLast?_concat, frameLine_shape]
  rfl

/-- C2 (witness): the line `"abc"` is answered with an unknown-command
failure response, a stderr diagnostic and continuation `true`. -/
theorem unknown_command_failure_response_witness :
    ∃ r, ExecuteCommand cfgW unitEnv st0W "abc" = some r ∧
      r.running = true ∧
      r.state.successHandle = false ∧
      r.stderrOut = ["? unknown command.\n"] ∧
      r.stdoutOut.getLast? =
        some ("?" ++ (if 0 ≤ (-1 : Int) then toString (-1 : Int) else "") ++ " " ++
          "unknown command." ++
          (if r.state.lizzieInterval < 0 then "\n\n" else "\n")) :=
  unknown_command_failure_response cfgW unitEnv st0W "abc" (-1) "abc" []
    (by decide) (by decide) (by decide)

/-- C4: every response `ExecuteCommand` emits is framed as the marker `=`
on success or `?` on failure (from the final success flag), immediately
followed with no separator by the numeric command id when the request
carried one, a single space, the body, and the blank-line terminator (two
newlines) unless streaming-analysis mode is active after dispatch, in
which case only the response line's own single newline is emitted and no
blank-line terminator is appended. -/
theorem response_framing (cfg : Config) (env : Env σ) (st : GTPState σ)
    (command : String) (r : ExecResult σ)
    (h : ExecuteCommand cfg env st command = some r) :
    ∃ cid ty args response,
      ParseCommand command = some (cid, ty, args) ∧
      r.stdoutOut.getLast? =
        some ((if r.state.successHandle then "=" else "?") ++
          (if 0 ≤ cid then toString cid else "") ++ " " ++ response ++
          (if r.state.lizzieInterval < 0 then "\n\n" else "\n")) := by
  unfold ExecuteCommand at h
  cases hp : ParseCommand command with
  | none => rw [hp] at h; exact absurd h (by simp)
  | some p =>
    rw [hp, Option.some_bind] at h
    cases hd : dispatch cfg env (preState st).1 command p.2.1 p.2.2 with
    | none => rw [hd] at h; exact absurd h (by simp)
    | some d =>
      rw [hd, Option.some_bind] at h
      refine ⟨p.1, p.2.1, p.2.2, d.2.1, rfl, ?_⟩
      rw [← Option.some.inj h]
      show ((preState st).2 ++ [frameLine p.1 d.1 d.2.1]).getLast? = _
      rw [List.getLast?_concat, frameLine_shape]

/-- C4 (witness): the `name` command from the initial state is answered
with the framed line `= AQ` followed by the blank-line terminator. -/
theorem response_framing_witness :
    ∃ cid ty args response,
      ParseCommand "name" = some (cid, ty, args) ∧
      (["= AQ\n\n"] : List String).getLast? =
        some ((if st0W.successHandle then "=" else "?") ++
          (if 0 ≤ cid then toString cid else "") ++ " " ++ response ++
          (if st0W.lizzieInterval < 0 then "\n\n" else "\n")) :=
  response_framing cfgW unitEnv st0W "name"
    { state := st0W, stdoutOut := ["= AQ\n\n"], stderrOut := [], running := true }
    (by decide)

/-- C5: when the streaming-analysis interval is positive as a new command
arrives, `ExecuteCommand` behaves exactly as if it first emitted one blank
line on the protocol stream and ran `StopLizzieAnalysis` (cancelling the
running think and making the interval negative), and then processed the
command from that state: the blank-line terminator precedes the command's
own response, and streaming is disabled before dispatch. -/
theorem streaming_predispatch_terminator (cfg : Config) (env : Env σ)
    (st : GTPState σ) (command : String) (h : 0 < st.lizzieInterval) :
    ExecuteCommand cfg env st command =
      (ExecuteCommand cfg env (StopLizzieAnalysis st) command).map
        (fun r => { r with stdoutOut := "\n" :: r.stdoutOut }) := by
  unfold ExecuteCommand
  have hpre1 : preState st =
      ({ StopLizzieAnalysis st with successHandle := true }, ["\n"]) := by
    simp [preState, h, StopLizzieAnalysis]
  have hpre2 : preState (StopLizzieAnalysis st) =
      ({ StopLizzieAnalysis st with successHandle := true }, []) := by
    simp [preState, StopLizzieAnalysis]
  simp only [hpre1, hpre2]
  cases hp : ParseCommand command with
  | none => rfl
  | some p =>
    simp only [Option.some_bind]
    cases hd : dispatch cfg env { StopLizzieAnalysis st with successHandle := true }
        command p.2.1 p.2.2 with
    | none => rfl
    | some d => rfl

/-- C5 (witness): from a state with interval 1, the `name` command's
output is the blank line followed by the framed response, matching the
stopped-and-disabled run. -/
theorem streaming_predispatch_terminator_witness :
    0 < stLzW.lizzieInterval ∧
      ExecuteCommand cfgW unitEnv stLzW "name" =
        (ExecuteCommand cfgW unitEnv (StopLizzieAnalysis stLzW) "name").map
          (fun r => { r with stdoutOut := "\n" :: r.stdoutOut }) :=
  ⟨by decide, streaming_predispatch_terminator cfgW unitEnv stLzW "name" (by decide)⟩

/-- C7: with an integer argument equal to the fixed supported board size,
`boardsize` succeeds and leaves the session state completely unchanged
(empty response body, success flag untouched, so the marker is `=`); with
any other integer argument it fails — only the success flag changes, so
the marker is `?` — with a response body naming the supported size, and a
matching diagnostic line on the error channel. -/
theorem boardsize_fixed_size_only (cfg : Config) (env : Env σ) (st : GTPState σ)
    (command a0 : String) (rest : List String) (v : Int)
    (hpv : strContains command "protocol_version" = false)
    (hv : stoi a0 = some v) :
    (v = kBSize → dispatch cfg env st command "boardsize" (a0 :: rest) =
      some (st, "", [])) ∧
    (v ≠ kBSize → dispatch cfg env st command "boardsize" (a0 :: rest) =
      some ({ st with successHandle := false },
        "This build is allowed to play in only " ++ toString kBSize ++ " board.",
        ["? " ++ ("This build is allowed to play in only " ++ toString kBSize ++
          " board.") ++ "\n"])) := by
  have hfs : FindString command "protocol_version" = false := by
    rw [FindString_single, hpv, Bool.and_false]
  constructor
  · intro he
    simp [dispatch, hfs, hv, he]
  · intro hne
    simp [dispatch, hfs, hv, hne]

/-- C7 (witness): `boardsize` with argument 19 succeeds and leaves the
state unchanged; with argument 13 it fails with the descriptive message. -/
theorem boardsize_fixed_size_only_witness :
    (stoi "19" = some 19 ∧
      dispatch cfgW unitEnv st0W "boardsize 19" "boardsize" ["19"] =
        some (st0W, "", [])) ∧
    (stoi "13" = some 13 ∧
      dispatch cfgW unitEnv st0W "boardsize 13" "boardsize" ["13"] =
        some ({ st0W with successHandle := false },
          "This build is allowed to play in only " ++ toString kBSize ++ " board.",
          ["? " ++ ("This build is allowed to play in only " ++ toString kBSize ++
            " board.") ++ "\n"])) :=
  ⟨⟨by decide, (boardsize_fixed_size_only cfgW unitEnv st0W "boardsize 19" "19" [] 19
      (by decide) (by decide)).1 rfl⟩,
   ⟨by decide, (boardsize_fixed_size_only cfgW unitEnv st0W "boardsize 13" "13" [] 13
      (by decide) (by decide)).2 (by decide)⟩⟩

set_option maxRecDepth 4096 in
/-- C8 (counterexample): the `list_commands` response body is not exactly
the recognized-command set newline-separated: the handler appends a
trailing `"= "` after the final newline, so the body differs both from the
intercalation of the set with newlines and from the concatenation of the
commands each followed by a newline. -/
theorem list_commands_trailing_marker :
    dispatch cfgW unitEnv st0W "list_commands" "list_commands" [] =
      some (st0W,
        String.join (kListCommands.map (fun c => c ++ "\n")) ++ "= ", []) ∧
    kListCommands.foldl (fun r c => r ++ c ++ "\n") "" ++ "= " ≠
      String.intercalate "\n" kListCommands ∧
    kListCommands.foldl (fun r c => r ++ c ++ "\n") "" ++ "= " ≠
      String.join (kListCommands.map (fun c => c ++ "\n")) := by decide

/-- C8 (amended): the `list_commands` response body is the recognized
command set in order, each command followed by a newline, with a trailing
literal `"= "` appended; `known_command` answers `true` for every queried
name in that set and `false` for every name outside it whenever the raw
command line does not contain the substring `protocol_version` — but any
command line containing that substring is hijacked by the raw-line
`FindString` branch and answered `2` instead, so the only real query of
the member `protocol_version` itself, the line
`known_command protocol_version`, is answered `= 2` rather than `true`. -/
theorem list_known_command_roundtrip (cfg : Config) (env : Env σ)
    (st : GTPState σ) (command name : String) (rest : List String) :
    (strContains command "protocol_version" = false →
      dispatch cfg env st command "list_commands" [] =
        some (st, String.join (kListCommands.map (fun c => c ++ "\n")) ++ "= ", [])) ∧
    (strContains command "protocol_version" = false →
      dispatch cfg env st command "known_command" (name :: rest) =
        some (st, if kListCommands.contains name then "true" else "false", [])) ∧
    (strContains command "protocol_version" = true →
      dispatch cfg env st command "known_command" (name :: rest) =
        some (st, "2", [])) ∧
    ExecuteCommand cfgW unitEnv st0W "known_command protocol_version" =
      some { state := st0W, stdoutOut := ["= 2\n\n"], stderrOut := [],
             running := true } := by
  have hbody : kListCommands.foldl (fun r c => r ++ c ++ "\n") "" ++ "= " =
      String.join (kListCommands.map (fun c => c ++ "\n")) ++ "= " := by
    set_option maxRecDepth 4096 in decide
  refine ⟨fun hpv => ?_, fun hpv => ?_, fun hpv => ?_, by decide⟩
  · have hfs : FindString command "protocol_version" = false := by
      rw [FindString_single, hpv, Bool.and_false]
    simp only [dispatch, hfs, Bool.false_eq_true, if_false]
    rw [← hbody]
    simp
  · have hfs : FindString command "protocol_version" = false := by
      rw [FindString_single, hpv, Bool.and_false]
    simp [dispatch, hfs]
  · have hfs : FindString command "protocol_version" = true := by
      rw [FindString_single, hpv]
      decide
    simp [dispatch, hfs]

/-- C8 (witness): the round-trip instantiated at the name `play`, plus the
hijacked query of the member `protocol_version`. -/
theorem list_known_command_roundtrip_witness :
    (dispatch cfgW unitEnv st0W "x" "list_commands" [] =
      some (st0W, String.join (kListCommands.map (fun c => c ++ "\n")) ++ "= ", [])) ∧
    (dispatch cfgW unitEnv st0W "x" "known_command" ["play"] =
      some (st0W, if kListCommands.contains "play" then "true" else "false", [])) ∧
    (dispatch cfgW unitEnv st0W "known_command protocol_version" "known_command"
        ["protocol_version"] = some (st0W, "2", [])) :=
  ⟨(list_known_command_roundtrip cfgW unitEnv st0W "x" "play" []).1 (by decide),
   (list_known_command_roundtrip cfgW unitEnv st0W "x" "play" []).2.1 (by decide),
   (list_known_command_roundtrip cfgW unitEnv st0W "known_command protocol_version"
     "protocol_version" []).2.2.1 (by decide)⟩
